import Mathlib

/-!
Verification of `scripts/play_fetch_runalyze.py` (Runalyze-Dashboard).

This file shallowly embeds the two pure parsing entry points of the script,
`parse_prognosis_html` and `parse_marathon_requirements_html`, together with
the regex machinery they rely on, and proves the specification claims about
them.

Modelling decisions:
* Text is `List Char`; Python strings entering the parsers are modelled by
  `PyInput` (a string or an arbitrary non-string value, which the guards at
  the top of both functions reject).
* The fixed regex patterns of the script only ever apply quantifiers to
  single-character classes, so they are embedded as token lists interpreted
  by a faithful backtracking matcher (`mtch`): greedy quantifiers try the
  longest consumption first, lazy ones the shortest, exactly as Python's
  `re` does for these patterns.  `re.search` tries successive start
  positions left to right; `re.findall` iterates `search` from the end of
  the previous (always non-empty) match.
* Python `float` results are modelled as exact rationals; the script only
  ever feeds `float` strings made of ASCII digits and periods.
* `list.sort(key=...)` is Python's stable ascending sort; it is modelled by
  `List.insertionSort` with the same key order, which is also stable and
  ascending, hence extensionally identical.
-/

/-- Python's `str.lower` restricted to a single character (ASCII-faithful). -/
def lowerCh (c : Char) : Char := c.toLower

/-- Case-insensitive character comparison, used because every regex in the
script that contains letters is compiled with `re.I`. -/
def lcEq (c d : Char) : Bool := lowerCh c == lowerCh d

/-- Python regex `\s` / `str.strip` whitespace (ASCII part). -/
def wsp (c : Char) : Bool :=
  c == ' ' || c == Char.ofNat 9 || c == Char.ofNat 10 || c == Char.ofNat 13 ||
  c == Char.ofNat 11 || c == Char.ofNat 12

/-- Python `str.strip()`: drop leading and trailing whitespace. -/
def pyStrip (l : List Char) : List Char :=
  ((l.dropWhile wsp).reverse.dropWhile wsp).reverse

/-- `(` or `)` — the character set of Python `str.strip('()')`. -/
def parenCh (c : Char) : Bool := c == '(' || c == ')'

/-- Python `str.strip('()')`: drop leading and trailing parentheses. -/
def stripParens (l : List Char) : List Char :=
  ((l.dropWhile parenCh).reverse.dropWhile parenCh).reverse

/-- Python substring test `pat in l` (case-sensitive). -/
def containsB (pat : List Char) : List Char → Bool
  | [] => pat.isEmpty
  | c :: rest => pat.isPrefixOf (c :: rest) || containsB pat (rest)

/-- Value of a list of ASCII decimal digits, most significant first. -/
def digitsVal (l : List Char) : Nat :=
  l.foldl (fun acc c => 10 * acc + (c.toNat - 48)) 0

/-- The characters kept by `re.sub(r'[^\d,\.]', '', ...)`: digits, comma,
period. -/
def distCh (c : Char) : Bool := c.isDigit || c == '.' || c == ','

/-- `re.sub(r'[^\d,\.]', '', label).replace(',', '.')`. -/
def cleanDistChars (l : List Char) : List Char :=
  (l.filter distCh).map (fun c => if c == ',' then '.' else c)

/-- Python `float()` on a string of digits and periods (the only shape the
script ever feeds it), returning the exact rational value; `none` models
the `ValueError` branch (empty string, bare period, several periods). -/
def pyFloatOpt (l : List Char) : Option ℚ :=
  if !(l.all distCh) || l.any (fun c => c == ',') then none
  else if l.count '.' == 0 then
    if l.isEmpty then none else some ((digitsVal l : ℕ) : ℚ)
  else if l.count '.' == 1 then
    let a := l.takeWhile (fun c => c != '.')
    let b := (l.dropWhile (fun c => c != '.')).tail
    if a.isEmpty && b.isEmpty then none
    else some (((digitsVal a : ℕ) : ℚ) + ((digitsVal b : ℕ) : ℚ) / (10 : ℚ) ^ b.length)
  else none

/-- The whole numeric-distance pipeline shared by both parsers:
`dist_clean = re.sub(r'[^\d,\.]', '', label).replace(',', '.')` followed by
`float(dist_clean)` with any failure mapped to `None`.  (The prognosis
parser reaches `None` through `try/except`, the requirements parser through
`if dist_clean` plus `try/except`; both compose to exactly this.) -/
def parse_distance (l : List Char) : Option ℚ := pyFloatOpt (cleanDistChars l)

/-- `re.sub(r'[^\d\.]', '', cell)` then `int(...) if ... else None` with
`try/except`: `int` succeeds exactly on a non-empty all-digit string. -/
def parse_pct (l : List Char) : Option ℤ :=
  let cleaned := l.filter (fun c => c.isDigit || c == '.')
  if cleaned.isEmpty then none
  else if cleaned.all Char.isDigit then some ((digitsVal cleaned : ℕ) : ℤ)
  else none

/-! ### A backtracking matcher for the script's regex patterns

Every quantifier in the script's patterns ranges over a single-character
class, so a pattern is a flat list of tokens.  Captured groups are delimited
by `grpO`/`grpC`; the optional `(?:...)` group of the tier-3 pattern
contains no quantifiers or captures and is represented by `optSeq` over the
simple token type `STok`. -/

/-- Simple tokens: literals and one-character classes. -/
inductive STok where
  | lit : List Char → STok
  | one : (Char → Bool) → STok

/-- Pattern tokens.  Quantifiers carry the character class they repeat. -/
inductive Tok where
  | lit : List Char → Tok
  | one : (Char → Bool) → Tok
  | starG : (Char → Bool) → Tok
  | starL : (Char → Bool) → Tok
  | plusG : (Char → Bool) → Tok
  | plusL : (Char → Bool) → Tok
  | optC : (Char → Bool) → Tok
  | rep12 : (Char → Bool) → Tok
  | optSeq : List STok → Tok
  | grpO : Tok
  | grpC : Tok

/-- Consume a literal case-insensitively, returning the rest of the input. -/
def dropLitCI : List Char → List Char → Option (List Char)
  | [], inp => some inp
  | _ :: _, [] => none
  | c :: cs, d :: ds => if lcEq c d then dropLitCI cs ds else none

/-- Deterministic matcher for simple token lists. -/
def mtchS : List STok → List Char → Option (List Char)
  | [], inp => some inp
  | STok.lit l :: ts, inp =>
    match dropLitCI l inp with
    | some rest => mtchS ts rest
    | none => none
  | STok.one p :: ts, inp =>
    match inp with
    | c :: rest => if p c then mtchS ts rest else none
    | [] => none

/-- Return the first success of `f` over the candidate consumption counts,
in the given preference order. -/
def tryKs (ks : List Nat) (f : Nat → Option α) : Option α :=
  match ks with
  | [] => none
  | k :: rest =>
    match f k with
    | some r => some r
    | none => tryKs rest f

/-- Anchored backtracking match of a token list against the input.  `stk`
holds the input as saved at each open capture; `caps` the completed
captures in order.  Returns the captures and the input remaining after the
match.  Preference orders follow Python `re`: greedy quantifiers longest
first, lazy ones shortest first, optional items presence first, and earlier
tokens backtrack only after all later alternatives fail. -/
def mtch : Nat → List Tok → List Char → List (List Char) → List (List Char) →
    Option (List (List Char) × List Char)
  | _, [], inp, _, caps => some (caps, inp)
  | 0, _ :: _, _, _, _ => none
  | fuel + 1, Tok.lit l :: ts, inp, stk, caps =>
    (match dropLitCI l inp with
     | some rest => mtch fuel ts rest stk caps
     | none => none)
  | fuel + 1, Tok.one p :: ts, inp, stk, caps =>
    (match inp with
     | c :: rest => if p c then mtch fuel ts rest stk caps else none
     | [] => none)
  | fuel + 1, Tok.starG p :: ts, inp, stk, caps =>
    tryKs (List.range ((inp.takeWhile p).length + 1)).reverse
      (fun k => mtch fuel ts (inp.drop k) stk caps)
  | fuel + 1, Tok.starL p :: ts, inp, stk, caps =>
    tryKs (List.range ((inp.takeWhile p).length + 1))
      (fun k => mtch fuel ts (inp.drop k) stk caps)
  | fuel + 1, Tok.plusG p :: ts, inp, stk, caps =>
    tryKs ((List.range (inp.takeWhile p).length).reverse.map (· + 1))
      (fun k => mtch fuel ts (inp.drop k) stk caps)
  | fuel + 1, Tok.plusL p :: ts, inp, stk, caps =>
    tryKs ((List.range (inp.takeWhile p).length).map (· + 1))
      (fun k => mtch fuel ts (inp.drop k) stk caps)
  | fuel + 1, Tok.optC p :: ts, inp, stk, caps =>
    (match inp with
     | c :: rest =>
       if p c then
         match mtch fuel ts rest stk caps with
         | some r => some r
         | none => mtch fuel ts inp stk caps
       else mtch fuel ts inp stk caps
     | [] => mtch fuel ts inp stk caps)
  | fuel + 1, Tok.rep12 p :: ts, inp, stk, caps =>
    tryKs [2, 1]
      (fun k =>
        if (inp.take k).length == k && (inp.take k).all p then
          mtch fuel ts (inp.drop k) stk caps
        else none)
  | fuel + 1, Tok.optSeq sub :: ts, inp, stk, caps =>
    (match mtchS sub inp with
     | some rest =>
       (match mtch fuel ts rest stk caps with
        | some r => some r
        | none => mtch fuel ts inp stk caps)
     | none => mtch fuel ts inp stk caps)
  | fuel + 1, Tok.grpO :: ts, inp, stk, caps => mtch fuel ts inp (inp :: stk) caps
  | fuel + 1, Tok.grpC :: ts, inp, stk, caps =>
    (match stk with
     | saved :: stk2 =>
       mtch fuel ts inp stk2 (caps ++ [saved.take (saved.length - inp.length)])
     | [] => none)

/-- Anchored match of a whole token list: one fuel unit per token is
exactly enough. -/
def rmatch (toks : List Tok) (inp : List Char) :
    Option (List (List Char) × List Char) :=
  mtch toks.length toks inp [] []

/-- `re.search`: try an anchored match at each start position, leftmost
first. -/
def rsearch (toks : List Tok) : List Char → Option (List (List Char) × List Char)
  | [] => rmatch toks []
  | c :: rest =>
    match rmatch toks (c :: rest) with
    | some r => some r
    | none => rsearch toks rest

/-- `re.findall`: iterate `search`, resuming after each match.  All matched
patterns in the script consume at least one character, so fuel
`inp.length + 1` never runs out. -/
def rfindall : Nat → List Tok → List Char → List (List (List Char))
  | 0, _, _ => []
  | fuel + 1, toks, inp =>
    match rsearch toks inp with
    | none => []
    | some (caps, rest) => caps :: rfindall fuel toks rest

/-! ### The script's regex patterns as token lists -/

/-- `["\']` -/
def quoteCh (c : Char) : Bool := c == '"' || c == Char.ofNat 39

/-- `[^"\']` -/
def notQuoteCh (c : Char) : Bool := !(quoteCh c)

/-- `[^>]` -/
def neGt (c : Char) : Bool := c != '>'

/-- `[^<]` -/
def neLt (c : Char) : Bool := c != '<'

/-- `[^<\)]` -/
def neLtParen (c : Char) : Bool := c != '<' && c != ')'

/-- `.` under `re.S` -/
def anyCh (_ : Char) : Bool := true

/-- `[0-9]` -/
def digitCh (c : Char) : Bool := c.isDigit

/-- `[0-5]` -/
def d05 (c : Char) : Bool := 48 ≤ c.toNat && c.toNat ≤ 53

/-- `(` -/
def lparenCh (c : Char) : Bool := c == '('

/-- `)` -/
def rparenCh (c : Char) : Bool := c == ')'

/-- `<div[^>]+class=["\']panel-content["\'][^>]*>(.*?)</div>` (line 102). -/
def patPanel : List Tok :=
  [Tok.lit "<div".data, Tok.plusG neGt, Tok.lit "class=".data, Tok.one quoteCh,
   Tok.lit "panel-content".data, Tok.one quoteCh, Tok.starG neGt, Tok.lit ">".data,
   Tok.grpO, Tok.starL anyCh, Tok.grpC, Tok.lit "</div>".data]

/-- `<p[^>]*>(.*?)</p>` (line 106). -/
def patP : List Tok :=
  [Tok.lit "<p".data, Tok.starG neGt, Tok.lit ">".data,
   Tok.grpO, Tok.starL anyCh, Tok.grpC, Tok.lit "</p>".data]

/-- The tier-1 paragraph pattern `p_re` (lines 107–109):
`<span[^>]*class=["\']right["\'][^>]*>.*?<strong[^>]*>\s*([^<]+?)\s*</strong>`
`.*?<small[^>]*>\s*\(?([^<\)]+?)\)?\s*</small>.*?</span>.*?<strong[^>]*>\s*([^<]+?mi)\s*</strong>` -/
def patTier1 : List Tok :=
  [Tok.lit "<span".data, Tok.starG neGt, Tok.lit "class=".data, Tok.one quoteCh,
   Tok.lit "right".data, Tok.one quoteCh, Tok.starG neGt, Tok.lit ">".data,
   Tok.starL anyCh,
   Tok.lit "<strong".data, Tok.starG neGt, Tok.lit ">".data,
   Tok.starG wsp, Tok.grpO, Tok.plusL neLt, Tok.grpC, Tok.starG wsp, Tok.lit "</strong>".data,
   Tok.starL anyCh,
   Tok.lit "<small".data, Tok.starG neGt, Tok.lit ">".data,
   Tok.starG wsp, Tok.optC lparenCh, Tok.grpO, Tok.plusL neLtParen, Tok.grpC,
   Tok.optC rparenCh, Tok.starG wsp, Tok.lit "</small>".data,
   Tok.starL anyCh, Tok.lit "</span>".data,
   Tok.starL anyCh,
   Tok.lit "<strong".data, Tok.starG neGt, Tok.lit ">".data,
   Tok.starG wsp, Tok.grpO, Tok.plusL neLt, Tok.lit "mi".data, Tok.grpC,
   Tok.starG wsp, Tok.lit "</strong>".data]

/-- The tier-2 `global_pattern` (lines 131–133):
`<p[^>]*>.*?(?:<strong[^>]*>\s*([^<]+?)\s*</strong>).*?`
`(?:<small[^>]*>\s*\(?([^<\)]+?)\)?\s*</small>).*?(?:<strong[^>]*>\s*([^<]+?mi)\s*</strong>).*?</p>` -/
def patTier2 : List Tok :=
  [Tok.lit "<p".data, Tok.starG neGt, Tok.lit ">".data,
   Tok.starL anyCh,
   Tok.lit "<strong".data, Tok.starG neGt, Tok.lit ">".data,
   Tok.starG wsp, Tok.grpO, Tok.plusL neLt, Tok.grpC, Tok.starG wsp, Tok.lit "</strong>".data,
   Tok.starL anyCh,
   Tok.lit "<small".data, Tok.starG neGt, Tok.lit ">".data,
   Tok.starG wsp, Tok.optC lparenCh, Tok.grpO, Tok.plusL neLtParen, Tok.grpC,
   Tok.optC rparenCh, Tok.starG wsp, Tok.lit "</small>".data,
   Tok.starL anyCh,
   Tok.lit "<strong".data, Tok.starG neGt, Tok.lit ">".data,
   Tok.starG wsp, Tok.grpO, Tok.plusL neLt, Tok.lit "mi".data, Tok.grpC,
   Tok.starG wsp, Tok.lit "</strong>".data,
   Tok.starL anyCh, Tok.lit "</p>".data]

/-- The tier-3 `simple_pattern` (line 154):
`([0-9\.,]+\s*mi).*?([0-9]{1,2}:[0-5][0-9](?::[0-5][0-9])?).*?(\([0-9]{1,2}:[0-5][0-9]\/mi\))` -/
def patTier3 : List Tok :=
  [Tok.grpO, Tok.plusG distCh, Tok.starG wsp, Tok.lit "mi".data, Tok.grpC,
   Tok.starL anyCh,
   Tok.grpO, Tok.rep12 digitCh, Tok.lit ":".data, Tok.one d05, Tok.one digitCh,
   Tok.optSeq [STok.lit ":".data, STok.one d05, STok.one digitCh], Tok.grpC,
   Tok.starL anyCh,
   Tok.grpO, Tok.lit "(".data, Tok.rep12 digitCh, Tok.lit ":".data, Tok.one d05,
   Tok.one digitCh, Tok.lit "/mi".data, Tok.lit ")".data, Tok.grpC]

/-- `<table[^>]*class=["\'][^"\']*zebra-style[^"\']*["\'][^>]*>(.*?)</table>` (line 195). -/
def patTable : List Tok :=
  [Tok.lit "<table".data, Tok.starG neGt, Tok.lit "class=".data, Tok.one quoteCh,
   Tok.starG notQuoteCh, Tok.lit "zebra-style".data, Tok.starG notQuoteCh, Tok.one quoteCh,
   Tok.starG neGt, Tok.lit ">".data,
   Tok.grpO, Tok.starL anyCh, Tok.grpC, Tok.lit "</table>".data]

/-- `<tr[^>]*class=["\'][^"\']*r[^"\']*["\'][^>]*>(.*?)</tr>` (line 200). -/
def patTr : List Tok :=
  [Tok.lit "<tr".data, Tok.starG neGt, Tok.lit "class=".data, Tok.one quoteCh,
   Tok.starG notQuoteCh, Tok.lit "r".data, Tok.starG notQuoteCh, Tok.one quoteCh,
   Tok.starG neGt, Tok.lit ">".data,
   Tok.grpO, Tok.starL anyCh, Tok.grpC, Tok.lit "</tr>".data]

/-- `<td[^>]*>(.*?)</td>` (line 201). -/
def patTd : List Tok :=
  [Tok.lit "<td".data, Tok.starG neGt, Tok.lit ">".data,
   Tok.grpO, Tok.starL anyCh, Tok.grpC, Tok.lit "</td>".data]

/-- `re.search(pat, s)` used as a boolean, for the icon-marker literals. -/
def hasLitCI (pat : String) (s : List Char) : Bool :=
  (rsearch [Tok.lit pat.data] s).isSome

/-- `re.search(r'fa-check', td5, re.I)` (line 253). -/
def hasFaCheck (s : List Char) : Bool := hasLitCI "fa-check" s

/-- `re.search(r'fa-xmark|fa-times|xmark|minus', td5, re.I)` (line 255). -/
def hasXMark (s : List Char) : Bool :=
  hasLitCI "fa-xmark" s || hasLitCI "fa-times" s || hasLitCI "xmark" s || hasLitCI "minus" s

/-! ### Data model -/

/-- The `meta` object of a parse result. -/
structure ParseMeta where
  login_detected : Bool
  found : Bool
deriving Repr

/-- One prognosis entry.  Tier 2 can in principle store `None` in any field
(`... if m[0] else None`), so all displayed fields are optional, as in the
dicts the script builds. -/
structure PrognosisEntry where
  distance_label : Option String
  distance_mi : Option ℚ
  time : Option String
  pace : Option String

/-- One requirements-table entry (nine fields, lines 263–273). -/
structure RequirementEntry where
  distance_label : String
  distance_mi : Option ℚ
  required_pct : Option ℤ
  weekly : String
  long_run : String
  achieved_pct : Option ℤ
  achieved_ok : Bool
  prognosis_time : Option String
  optimum_time : Option String

/-- Result of `parse_prognosis_html`. -/
structure ProgResult where
  meta : ParseMeta
  entries : List PrognosisEntry

/-- Result of `parse_marathon_requirements_html`. -/
structure ReqResult where
  meta : ParseMeta
  entries : List RequirementEntry

/-- The parsers' argument: a Python value that is either a string or some
non-string value (rejected by `isinstance(html_text, str)`). -/
inductive PyInput where
  | str : String → PyInput
  | nonString : PyInput

/-- The login-indicator vocabulary (lines 98 and 191). -/
def login_indicators : List (List Char) :=
  ["login".data, "signin".data, "sign in".data, "two-factor".data, "2fa".data]

/-- `lower = html_text.lower(); any(tok in lower for tok in login_indicators)`. -/
def login_detectedF (html : List Char) : Bool :=
  login_indicators.any (fun tok => containsB tok (html.map lowerCh))

/-! ### parse_prognosis_html -/

/-- Group 1 of a search result, `''`-defaulted (never actually absent). -/
def grp1 (r : Option (List (List Char) × List Char)) (whole : List Char) : List Char :=
  match r with
  | some (caps, _) => caps.getD 0 []
  | none => whole

/-- Lines 102–103: locate the `panel-content` block, whole document as
fallback. -/
def panelBlock (html : List Char) : List Char :=
  match rsearch patPanel html with
  | some (caps, _) => caps.getD 0 []
  | none => html

/-- Line 106: `re.findall(r'<p[^>]*>(.*?)</p>', block, re.S | re.I)`. -/
def pBlocks (html : List Char) : List (List Char) :=
  let block := panelBlock html
  (rfindall (block.length + 1) patP block).map (fun caps => caps.getD 0 [])

/-- Lines 111–127: build the entry appended for one tier-1 match. -/
def mkProgEntry1 (caps : List (List Char)) : PrognosisEntry :=
  let time_str := pyStrip (caps.getD 0 [])
  let pace_str := pyStrip (caps.getD 1 [])
  let dist_label := pyStrip (caps.getD 2 [])
  { distance_label := some (String.mk dist_label)
    distance_mi := parse_distance dist_label
    time := some (String.mk time_str)
    pace := some (String.mk pace_str) }

/-- Tier 1 (lines 105–127): one entry per paragraph block on which `p_re`
matches. -/
def tier1Entries (html : List Char) : List PrognosisEntry :=
  (pBlocks html).filterMap
    (fun pb => (rsearch patTier1 pb).map (fun r => mkProgEntry1 r.fst))

/-- Lines 134–150: build the entry for one tier-2 match tuple. -/
def mkProgEntry2 (caps : List (List Char)) : PrognosisEntry :=
  let m0 := caps.getD 0 []
  let m1 := caps.getD 1 []
  let m2 := caps.getD 2 []
  let dist_label : Option (List Char) :=
    if m2.isEmpty then none else some (pyStrip m2)
  let dist_num : Option ℚ :=
    match dist_label with
    | some dl => if dl.isEmpty then none else parse_distance dl
    | none => none
  { distance_label := dist_label.map String.mk
    distance_mi := dist_num
    time := if m0.isEmpty then none else some (String.mk (pyStrip m0))
    pace := if m1.isEmpty then none else some (String.mk (pyStrip m1)) }

/-- Tier 2 (lines 130–150): `global_pattern.findall(html_text)` over the
whole input. -/
def tier2Entries (html : List Char) : List PrognosisEntry :=
  (rfindall (html.length + 1) patTier2 html).map mkProgEntry2

/-- Lines 155–170: build the entry for one tier-3 match tuple. -/
def mkProgEntry3 (caps : List (List Char)) : PrognosisEntry :=
  let dist_label := pyStrip (caps.getD 0 [])
  let time_str := pyStrip (caps.getD 1 [])
  let pace_str := stripParens (pyStrip (caps.getD 2 []))
  { distance_label := some (String.mk dist_label)
    distance_mi := parse_distance dist_label
    time := some (String.mk time_str)
    pace := some (String.mk pace_str) }

/-- Tier 3 (lines 153–170): `simple_pattern.findall(html_text)`. -/
def tier3Entries (html : List Char) : List PrognosisEntry :=
  (rfindall (html.length + 1) patTier3 html).map mkProgEntry3

/-- The fallback chain (lines 105–170): tier 1, then — only if `entries` is
still empty — tier 2, then — only if still empty — tier 3. -/
def prognosisEntriesPre (html : List Char) : List PrognosisEntry :=
  let e1 := tier1Entries html
  if e1.isEmpty then
    let e2 := tier2Entries html
    if e2.isEmpty then tier3Entries html else e2
  else e1

/-- The sort key of line 173:
`(e.get("distance_mi") is None, e.get("distance_mi") or 0)`. -/
def progKey (e : PrognosisEntry) : Bool × ℚ :=
  (e.distance_mi.isNone, e.distance_mi.getD 0)

/-- Python `<=` on the key tuples: lexicographic with `False < True`. -/
def keyLeB (x y : Bool × ℚ) : Bool :=
  (!x.1 && y.1) || (x.1 == y.1 && decide (x.2 ≤ y.2))

/-- Order relation on prognosis entries induced by the sort key. -/
def progLe (a b : PrognosisEntry) : Prop := keyLeB (progKey a) (progKey b) = true

instance : DecidableRel progLe := fun _ _ => instDecidableEqBool _ _

/-- Line 173: `entries.sort(key=...)` — Python's stable ascending sort,
modelled by the (equally stable, ascending) insertion sort.  The
`try/except pass` around it never fires: comparing the key tuples cannot
raise. -/
def sortProgEntries (l : List PrognosisEntry) : List PrognosisEntry :=
  List.insertionSort progLe l

/-- `parse_prognosis_html` (lines 88–177). -/
def parse_prognosis_html : PyInput → ProgResult
  | PyInput.nonString => ⟨⟨false, false⟩, []⟩
  | PyInput.str s =>
    if s.data.isEmpty then ⟨⟨false, false⟩, []⟩
    else
      let html := s.data
      let entries := sortProgEntries (prognosisEntriesPre html)
      ⟨⟨login_detectedF html, decide (0 < entries.length)⟩, entries⟩

/-! ### parse_marathon_requirements_html -/

/-- `re.sub(r'<[^>]+>', '', s)` — strip markup tags.  At a `<`, the greedy
`[^>]+` run is maximal; the match succeeds exactly when the run is
non-empty and followed by `>`. -/
def stripTags : Nat → List Char → List Char
  | 0, _ => []
  | _ + 1, [] => []
  | fuel + 1, c :: rest =>
    if c == '<' then
      let run := rest.takeWhile (fun d => d != '>')
      if run.isEmpty then c :: stripTags fuel rest
      else
        match rest.drop run.length with
        | _ :: rest2 => stripTags fuel rest2
        | [] => c :: stripTags fuel rest
    else c :: stripTags fuel rest

/-- `s.replace('&nbsp;', ' ')` (case-sensitive, left to right). -/
def replaceNbsp : Nat → List Char → List Char
  | 0, _ => []
  | _ + 1, [] => []
  | fuel + 1, c :: rest =>
    if "&nbsp;".data.isPrefixOf (c :: rest) then
      ' ' :: replaceNbsp fuel ((c :: rest).drop 6)
    else c :: replaceNbsp fuel rest

/-- `clean_html` (lines 207–210): strip tags, replace `&nbsp;`, trim. -/
def clean_html (s : List Char) : List Char :=
  pyStrip (replaceNbsp (s.length + 1) (stripTags (s.length + 1) s))

/-- Lines 195–196: locate the `zebra-style` table, whole document as
fallback. -/
def tableBlock (html : List Char) : List Char :=
  match rsearch patTable html with
  | some (caps, _) => caps.getD 0 []
  | none => html

/-- Line 203: `tr_pattern.findall(block)`. -/
def reqRows (html : List Char) : List (List Char) :=
  let block := tableBlock html
  (rfindall (block.length + 1) patTr block).map (fun caps => caps.getD 0 [])

/-- Line 205: `td_pattern.findall(tr)`. -/
def rowTds (tr : List Char) : List (List Char) :=
  (rfindall (tr.length + 1) patTd tr).map (fun caps => caps.getD 0 [])

/-- Lines 212–273: process one row's cell list; `none` is the
`if len(tds) < 7: continue` branch. -/
def rowToEntry (tds : List (List Char)) : Option RequirementEntry :=
  if tds.length < 7 then none
  else
    let distance_cell := clean_html (tds.getD 0 [])
    let required_cell := clean_html (tds.getD 1 [])
    let weekly_cell := clean_html (tds.getD 2 [])
    let longrun_cell := clean_html (tds.getD 3 [])
    let achieved_cell := clean_html (tds.getD 4 [])
    let prognosis_cell : Option (List Char) :=
      if 6 < tds.length then some (clean_html (tds.getD 6 [])) else none
    let optimum_cell : Option (List Char) :=
      if 7 < tds.length then some (clean_html (tds.getD 7 [])) else none
    let td5 := tds.getD 5 []
    let achieved_ok : Bool :=
      if hasFaCheck td5 then true
      else if hasXMark td5 then false
      else false
    let prognosis_time : Option String :=
      match prognosis_cell with
      | some pc => if !pc.isEmpty && pc ≠ ['-'] then some (String.mk pc) else none
      | none => none
    let optimum_time : Option String :=
      match optimum_cell with
      | some oc => if !oc.isEmpty && oc ≠ ['-'] then some (String.mk oc) else none
      | none => none
    some
      { distance_label := String.mk distance_cell
        distance_mi := parse_distance distance_cell
        required_pct := parse_pct required_cell
        weekly := String.mk weekly_cell
        long_run := String.mk longrun_cell
        achieved_pct := parse_pct achieved_cell
        achieved_ok := achieved_ok
        prognosis_time := prognosis_time
        optimum_time := optimum_time }

/-- Lines 203–273: entries in row order; skipped rows contribute nothing. -/
def reqEntriesOf (html : List Char) : List RequirementEntry :=
  (reqRows html).filterMap (fun tr => rowToEntry (rowTds tr))

/-- `parse_marathon_requirements_html` (lines 179–275).  Note: no sorting
step. -/
def parse_marathon_requirements_html : PyInput → ReqResult
  | PyInput.nonString => ⟨⟨false, false⟩, []⟩
  | PyInput.str s =>
    if s.data.isEmpty then ⟨⟨false, false⟩, []⟩
    else
      let entries := reqEntriesOf s.data
      ⟨⟨login_detectedF s.data, decide (0 < entries.length)⟩, entries⟩

/-! ### Specification-side order predicate and concrete test inputs -/

/-- The ordering on `distance_mi` values demanded by the spec's Entry
Sequencer contract: ascending numerically, with null greater than every
number. -/
def distLeB (x y : Option ℚ) : Bool :=
  match x, y with
  | none, none => true
  | none, some _ => false
  | some _, none => true
  | some a, some b => decide (a ≤ b)

/-- The spec's tier-1 scenario input. -/
def ex1 : String :=
  "<p><span class=\"right\"><strong>13:13</strong><small>(7:05/mi)</small></span><strong>1,86 mi</strong></p>"

/-- A requirements table whose rows come distance-descending (5 mi before
3 mi). -/
def reqEx : String :=
  "<table class=\"zebra-style\"><tr class=\"r\"><td>5 mi</td><td>10</td><td>a</td><td>b</td><td>50</td><td>ok</td><td>4:00:00</td></tr><tr class=\"r\"><td>3 mi</td><td>10</td><td>a</td><td>b</td><td>50</td><td>ok</td><td>3:00:00</td></tr></table>"

/-- A requirements table with a malformed (6-cell) row between two good
rows. -/
def reqSkipEx : String :=
  "<table class=\"zebra-style\"><tr class=\"r\"><td>5 mi</td><td>10</td><td>a</td><td>b</td><td>50</td><td>ok</td><td>4:00:00</td></tr><tr class=\"r\"><td>3 mi</td><td>10</td><td>a</td><td>b</td><td>50</td><td>ok</td></tr><tr class=\"r\"><td>2 mi</td><td>10</td><td>a</td><td>b</td><td>50</td><td>ok</td><td>2:00:00</td></tr></table>"

/-- The first (good) row content of `reqSkipEx`. -/
def rowGood1 : List Char :=
  "<td>5 mi</td><td>10</td><td>a</td><td>b</td><td>50</td><td>ok</td><td>4:00:00</td>".data

/-- The middle (6-cell) row content of `reqSkipEx`. -/
def rowBad : List Char :=
  "<td>3 mi</td><td>10</td><td>a</td><td>b</td><td>50</td><td>ok</td>".data

/-- The last (good) row content of `reqSkipEx`. -/
def rowGood2 : List Char :=
  "<td>2 mi</td><td>10</td><td>a</td><td>b</td><td>50</td><td>ok</td><td>2:00:00</td>".data

/-- A requirements table whose prognosis cell cleans to the empty string. -/
def c8ex : String :=
  "<table class=\"zebra-style\"><tr class=\"r\"><td>5 mi</td><td>10</td><td>a</td><td>b</td><td>50</td><td>ok</td><td><b></b></td></tr></table>"

/-- Seven cells, sixth cell a check icon. -/
def rowCheck : List (List Char) :=
  ["5 mi".data, "10".data, "40 mi".data, "10 mi".data, "50".data,
   "<i class=\"fa-check\"></i>".data, "4:00:00".data]

/-- Seven cells, sixth cell an x icon. -/
def rowX : List (List Char) :=
  ["5 mi".data, "10".data, "40 mi".data, "10 mi".data, "50".data,
   "<i class=\"fa-times\"></i>".data, "4:00:00".data]

/-- Seven cells, sixth cell with no icon marker. -/
def rowPlain : List (List Char) :=
  ["5 mi".data, "10".data, "40 mi".data, "10 mi".data, "50".data,
   "ok".data, "4:00:00".data]

/-- Six cells only. -/
def row6 : List (List Char) :=
  ["5 mi".data, "10".data, "40 mi".data, "10 mi".data, "50".data, "ok".data]

/-- Eight cells (with optimum column). -/
def row8 : List (List Char) :=
  ["5 mi".data, "10".data, "40 mi".data, "10 mi".data, "50".data,
   "ok".data, "4:00:00".data, "3:45:00".data]

/-- Seven cells with an unparsable distance cell. -/
def rowND : List (List Char) :=
  ["n/a".data, "10".data, "40 mi".data, "10 mi".data, "50".data,
   "ok".data, "4:00:00".data]

/-- Seven cells whose prognosis cell is the placeholder dash. -/
def rowDash : List (List Char) :=
  ["5 mi".data, "10".data, "40 mi".data, "10 mi".data, "50".data,
   "ok".data, "-".data]

/-- Seven cells whose prognosis cell cleans to the empty string. -/
def rowEmptyCell : List (List Char) :=
  ["5 mi".data, "10".data, "40 mi".data, "10 mi".data, "50".data,
   "ok".data, "<b></b>".data]

/-! ### Helper lemmas -/

theorem containsB_iff (pat l : List Char) :
    containsB pat l = true ↔ ∃ pre post, l = pre ++ pat ++ post := by
  induction l with
  | nil =>
    simp only [containsB, List.isEmpty_iff]
    constructor
    · rintro rfl
      exact ⟨[], [], rfl⟩
    · rintro ⟨pre, post, h⟩
      have h2 : pre ++ (pat ++ post) = [] := by simpa using h.symm
      simp only [List.append_eq_nil] at h2
      exact h2.2.1
  | cons c r ih =>
    simp only [containsB, Bool.or_eq_true, ih, List.isPrefixOf_iff_prefix]
    constructor
    · rintro (hpre | ⟨pre, post, rfl⟩)
      · rcases hpre with ⟨t, ht⟩
        exact ⟨[], t, by simp [← ht]⟩
      · exact ⟨c :: pre, post, rfl⟩
    · rintro ⟨pre, post, h⟩
      cases pre with
      | nil =>
        left
        exact ⟨post, by simpa using h.symm⟩
      | cons d pre2 =>
        right
        rw [List.cons_append, List.cons_append, List.cons.injEq] at h
        exact ⟨pre2, post, h.2⟩

theorem rowToEntry_eq (tds : List (List Char)) (h7 : ¬ tds.length < 7) :
    rowToEntry tds = some
      { distance_label := String.mk (clean_html (tds.getD 0 []))
        distance_mi := parse_distance (clean_html (tds.getD 0 []))
        required_pct := parse_pct (clean_html (tds.getD 1 []))
        weekly := String.mk (clean_html (tds.getD 2 []))
        long_run := String.mk (clean_html (tds.getD 3 []))
        achieved_pct := parse_pct (clean_html (tds.getD 4 []))
        achieved_ok :=
          if hasFaCheck (tds.getD 5 []) then true
          else if hasXMark (tds.getD 5 []) then false else false
        prognosis_time :=
          match (if 6 < tds.length then some (clean_html (tds.getD 6 [])) else none) with
          | some pc => if !pc.isEmpty && pc ≠ ['-'] then some (String.mk pc) else none
          | none => none
        optimum_time :=
          match (if 7 < tds.length then some (clean_html (tds.getD 7 [])) else none) with
          | some oc => if !oc.isEmpty && oc ≠ ['-'] then some (String.mk oc) else none
          | none => none } := by
  unfold rowToEntry
  rw [if_neg h7]

theorem keyLeB_trans (x y z : Bool × ℚ) (h1 : keyLeB x y = true)
    (h2 : keyLeB y z = true) : keyLeB x z = true := by
  rcases x with ⟨b1, q1⟩
  rcases y with ⟨b2, q2⟩
  rcases z with ⟨b3, q3⟩
  cases b1 <;> cases b2 <;> cases b3 <;> simp_all [keyLeB]
  · exact le_trans h1 h2
  · exact le_trans h1 h2

theorem keyLeB_total (x y : Bool × ℚ) : keyLeB x y = true ∨ keyLeB y x = true := by
  rcases x with ⟨b1, q1⟩
  rcases y with ⟨b2, q2⟩
  cases b1 <;> cases b2 <;> simp [keyLeB]
  · exact le_total q1 q2
  · exact le_total q1 q2

instance : IsTrans PrognosisEntry progLe :=
  ⟨fun a b c => keyLeB_trans (progKey a) (progKey b) (progKey c)⟩

instance : IsTotal PrognosisEntry progLe :=
  ⟨fun a b => keyLeB_total (progKey a) (progKey b)⟩

theorem filter_orderedInsert (r : PrognosisEntry → PrognosisEntry → Prop)
    [DecidableRel r] (p : PrognosisEntry → Bool)
    (hp : ∀ x y, p x = true → p y = true → r x y)
    (a : PrognosisEntry) (s : List PrognosisEntry) :
    (List.orderedInsert r a s).filter p =
      if p a = true then a :: s.filter p else s.filter p := by
  induction s with
  | nil =>
    cases hpa : p a <;> simp [List.orderedInsert, List.filter, hpa]
  | cons b t ih =>
    by_cases hr : r a b
    · cases hpa : p a <;> cases hpb : p b <;>
        simp [List.orderedInsert, hr, List.filter_cons, hpa, hpb]
    · cases hpa : p a
      · simp [List.orderedInsert, hr, List.filter_cons, ih, hpa]
      · have hpb : p b = false := by
          cases hpb : p b
          · rfl
          · exact absurd (hp a b hpa hpb) hr
        simp [List.orderedInsert, hr, List.filter_cons, ih, hpa, hpb]

theorem filter_insertionSort (r : PrognosisEntry → PrognosisEntry → Prop)
    [DecidableRel r] (p : PrognosisEntry → Bool)
    (hp : ∀ x y, p x = true → p y = true → r x y)
    (l : List PrognosisEntry) :
    (List.insertionSort r l).filter p = l.filter p := by
  induction l with
  | nil => rfl
  | cons a t ih =>
    simp only [List.insertionSort]
    rw [filter_orderedInsert r p hp a (List.insertionSort r t)]
    cases hpa : p a <;> simp [List.filter_cons, hpa, ih]

/-! ### Claims -/

/-- C1: for every input, however malformed, both parsers return a
well-formed `ParseResult` (a `meta` record with `login_detected` and
`found`, plus an entry list) and never raise; on the empty string and on a
non-string input they return `login_detected = false`, `found = false` and
no entries. -/
theorem c1_wellformed_and_empty_input :
    (∀ inp, ∃ m es, parse_prognosis_html inp = ⟨m, es⟩) ∧
    (∀ inp, ∃ m es, parse_marathon_requirements_html inp = ⟨m, es⟩) ∧
    parse_prognosis_html (PyInput.str "") = ⟨⟨false, false⟩, []⟩ ∧
    parse_prognosis_html PyInput.nonString = ⟨⟨false, false⟩, []⟩ ∧
    parse_marathon_requirements_html (PyInput.str "") = ⟨⟨false, false⟩, []⟩ ∧
    parse_marathon_requirements_html PyInput.nonString = ⟨⟨false, false⟩, []⟩ :=
  ⟨fun _ => ⟨_, _, rfl⟩, fun _ => ⟨_, _, rfl⟩, rfl, rfl, rfl, rfl⟩

/-- C2: the three prognosis extraction tiers are attempted strictly in
order and extraction stops at the first tier producing records: if tier 1
yields entries, they (sorted) are the whole result and tiers 2 and 3
contribute nothing; tier 2 is used only when tier 1 is empty; tier 3 only
when both earlier tiers are empty. -/
theorem c2_tier_short_circuit (s : String) :
    ((tier1Entries s.data).isEmpty = false →
      prognosisEntriesPre s.data = tier1Entries s.data ∧
      (parse_prognosis_html (PyInput.str s)).entries =
        sortProgEntries (tier1Entries s.data)) ∧
    ((tier1Entries s.data).isEmpty = true → (tier2Entries s.data).isEmpty = false →
      prognosisEntriesPre s.data = tier2Entries s.data) ∧
    ((tier1Entries s.data).isEmpty = true → (tier2Entries s.data).isEmpty = true →
      prognosisEntriesPre s.data = tier3Entries s.data) := by
  refine ⟨fun h1 => ⟨?_, ?_⟩, fun h1 h2 => ?_, fun h1 h2 => ?_⟩
  · simp [prognosisEntriesPre, h1]
  · have hd : s.data.isEmpty = false := by
      cases hd : s.data.isEmpty
      · rfl
      · have hnil : s.data = [] := by simpa [List.isEmpty_iff] using hd
        rw [hnil, show tier1Entries [] = [] from rfl] at h1
        simp at h1
    simp [parse_prognosis_html, hd, prognosisEntriesPre, h1]
  · simp [prognosisEntriesPre, h1, h2]
  · simp [prognosisEntriesPre, h1, h2]

set_option maxRecDepth 100000 in
/-- Witness for C2: on the spec's tier-1 scenario input, tier 1 fires and
the result is exactly the sorted tier-1 entries. -/
theorem c2_tier_short_circuit_witness :
    (tier1Entries ex1.data).isEmpty = false ∧
    (parse_prognosis_html (PyInput.str ex1)).entries =
      sortProgEntries (tier1Entries ex1.data) :=
  ⟨by decide, ((c2_tier_short_circuit ex1).1 (by decide)).2⟩

/-- C4: `meta.login_detected` is true iff one of the tokens `login`,
`signin`, `sign in`, `two-factor`, `2fa` occurs (case-insensitively) as a
substring anywhere in the full raw input, for both parsers; the flag does
not depend on extraction success. -/
theorem c4_login_detection (s : String) :
    ((parse_prognosis_html (PyInput.str s)).meta.login_detected = true ↔
      ∃ tok ∈ login_indicators, ∃ pre post, s.data.map lowerCh = pre ++ tok ++ post) ∧
    ((parse_marathon_requirements_html (PyInput.str s)).meta.login_detected = true ↔
      ∃ tok ∈ login_indicators, ∃ pre post, s.data.map lowerCh = pre ++ tok ++ post) := by
  have key : login_detectedF s.data = true ↔
      ∃ tok ∈ login_indicators, ∃ pre post, s.data.map lowerCh = pre ++ tok ++ post := by
    simp only [login_detectedF, List.any_eq_true]
    constructor
    · rintro ⟨tok, htok, hc⟩
      exact ⟨tok, htok, (containsB_iff tok _).mp hc⟩
    · rintro ⟨tok, htok, hinf⟩
      exact ⟨tok, htok, (containsB_iff tok _).mpr hinf⟩
  cases hd : s.data.isEmpty
  · constructor
    · rw [show (parse_prognosis_html (PyInput.str s)).meta.login_detected =
          login_detectedF s.data from by simp [parse_prognosis_html, hd]]
      exact key
    · rw [show (parse_marathon_requirements_html (PyInput.str s)).meta.login_detected =
          login_detectedF s.data from by simp [parse_marathon_requirements_html, hd]]
      exact key
  · have hnil : s.data = [] := by simpa [List.isEmpty_iff] using hd
    have hne : ∀ tok ∈ login_indicators, tok ≠ [] := by decide
    have hrhs : ¬ ∃ tok ∈ login_indicators, ∃ pre post,
        s.data.map lowerCh = pre ++ tok ++ post := by
      rintro ⟨tok, htok, pre, post, h⟩
      rw [hnil] at h
      have h2 : pre ++ (tok ++ post) = [] := by simpa using h.symm
      simp only [List.append_eq_nil] at h2
      exact hne tok htok h2.2.1
    have hp : (parse_prognosis_html (PyInput.str s)).meta.login_detected = false := by
      simp [parse_prognosis_html, hd]
    have hm : (parse_marathon_requirements_html (PyInput.str s)).meta.login_detected = false := by
      simp [parse_marathon_requirements_html, hd]
    rw [hp, hm]
    constructor <;> exact iff_of_false (by simp) hrhs

set_option maxRecDepth 1000000 in
/-- Counterexample for C3: the requirements parser performs no sorting —
on a table whose rows come distance-descending (5 mi, then 3 mi) the
returned entries are not ascending by `distance_mi`. -/
theorem c3_requirements_not_sorted_counterexample :
    ¬ List.Chain' (fun a b => distLeB a.distance_mi b.distance_mi = true)
      (parse_marathon_requirements_html (PyInput.str reqEx)).entries := by
  intro hch
  have hmap : (parse_marathon_requirements_html (PyInput.str reqEx)).entries.map
      (fun e => e.distance_mi) = [some ((5 : ℕ) : ℚ), some ((3 : ℕ) : ℚ)] := by
    decide
  have hch2 : List.Chain' (fun a b : Option ℚ => distLeB a b = true)
      ((parse_marathon_requirements_html (PyInput.str reqEx)).entries.map
        (fun e => e.distance_mi)) := by
    rw [List.chain'_map]
    exact hch
  rw [hmap] at hch2
  have hle : distLeB (some ((5 : ℕ) : ℚ)) (some ((3 : ℕ) : ℚ)) = true :=
    (List.chain'_cons.mp hch2).1
  have : ((5 : ℕ) : ℚ) ≤ ((3 : ℕ) : ℚ) := by
    simpa [distLeB] using hle
  norm_num at this

theorem progLe_imp_distLe (a b : PrognosisEntry) (h : progLe a b) :
    distLeB a.distance_mi b.distance_mi = true := by
  rcases ha : a.distance_mi with _ | qa <;> rcases hb : b.distance_mi with _ | qb <;>
    simp_all [progLe, keyLeB, progKey, distLeB]

theorem keyLeB_refl (x : Bool × ℚ) : keyLeB x x = true := by
  simp [keyLeB]

/-- C3 as amended: the prognosis parser's entries are stable-sorted
ascending by `distance_mi` with null distances after all numeric ones
(adjacent entries are ordered, the output is a permutation of the
pre-sort entries, and entries with equal sort key keep their relative
order), and the sorting step is total (never raises); the requirements
parser, by contrast, performs no sort and returns its entries in
table-row order. -/
theorem c3_amended_sorting (s : String) :
    List.Chain' (fun a b => distLeB a.distance_mi b.distance_mi = true)
      (parse_prognosis_html (PyInput.str s)).entries ∧
    ((parse_prognosis_html (PyInput.str s)).entries).Perm
      (prognosisEntriesPre s.data) ∧
    (∀ k : Bool × ℚ,
      ((parse_prognosis_html (PyInput.str s)).entries.filter
        (fun e => decide (progKey e = k))) =
      ((prognosisEntriesPre s.data).filter
        (fun e => decide (progKey e = k)))) ∧
    (parse_marathon_requirements_html (PyInput.str s)).entries =
      reqEntriesOf s.data := by
  have hp : ∀ k : Bool × ℚ, ∀ x y : PrognosisEntry,
      decide (progKey x = k) = true → decide (progKey y = k) = true → progLe x y := by
    intro k x y hx hy
    have hx2 : progKey x = k := of_decide_eq_true hx
    have hy2 : progKey y = k := of_decide_eq_true hy
    show keyLeB (progKey x) (progKey y) = true
    rw [hx2, hy2]
    exact keyLeB_refl k
  cases hd : s.data.isEmpty
  · have hent : (parse_prognosis_html (PyInput.str s)).entries =
        sortProgEntries (prognosisEntriesPre s.data) := by
      simp [parse_prognosis_html, hd]
    have hreq : (parse_marathon_requirements_html (PyInput.str s)).entries =
        reqEntriesOf s.data := by
      simp [parse_marathon_requirements_html, hd]
    refine ⟨?_, ?_, ?_, hreq⟩
    · rw [hent]
      exact ((List.sorted_insertionSort progLe
        (prognosisEntriesPre s.data)).imp
          (fun hab => progLe_imp_distLe _ _ hab)).chain'
    · rw [hent]
      exact List.perm_insertionSort progLe (prognosisEntriesPre s.data)
    · intro k
      rw [hent]
      exact filter_insertionSort progLe (fun e => decide (progKey e = k)) (hp k)
        (prognosisEntriesPre s.data)
  · have hnil : s.data = [] := by simpa [List.isEmpty_iff] using hd
    have hent : (parse_prognosis_html (PyInput.str s)).entries = [] := by
      simp [parse_prognosis_html, hd]
    have hreq : (parse_marathon_requirements_html (PyInput.str s)).entries = [] := by
      simp [parse_marathon_requirements_html, hd]
    rw [hent, hreq, hnil]
    exact ⟨by simp, by rw [show prognosisEntriesPre [] = [] from rfl], fun k => by
      rw [show prognosisEntriesPre [] = [] from rfl], by
      rw [show reqEntriesOf [] = [] from rfl]⟩

/-- C5: a matched table row with fewer than 7 cells is silently discarded,
a row with 7 or 8 cells produces exactly one entry, and a skipped row
leaves the processing of the surrounding rows unchanged. -/
theorem c5_row_validation :
    (∀ tds : List (List Char), tds.length < 7 → rowToEntry tds = none) ∧
    (∀ tds : List (List Char), tds.length = 7 ∨ tds.length = 8 →
      (rowToEntry tds).isSome = true) ∧
    (∀ html pre bad post, reqRows html = pre ++ bad :: post →
      rowToEntry (rowTds bad) = none →
      reqEntriesOf html =
        pre.filterMap (fun tr => rowToEntry (rowTds tr)) ++
        post.filterMap (fun tr => rowToEntry (rowTds tr))) := by
  refine ⟨?_, ?_, ?_⟩
  · intro tds h
    unfold rowToEntry
    rw [if_pos h]
  · intro tds h
    have h7 : ¬ tds.length < 7 := by omega
    rw [rowToEntry_eq tds h7]
    rfl
  · intro html pre bad post hrows hbad
    unfold reqEntriesOf
    rw [hrows]
    simp [List.filterMap_append, List.filterMap_cons, hbad]

set_option maxRecDepth 1000000 in
/-- Witness for C5: a 6-cell row is dropped, 7- and 8-cell rows are
accepted, and in a table whose middle row has 6 cells the outer rows are
still processed. -/
theorem c5_row_validation_witness :
    rowToEntry row6 = none ∧
    (rowToEntry rowPlain).isSome = true ∧
    (rowToEntry row8).isSome = true ∧
    reqEntriesOf reqSkipEx.data =
      [rowGood1].filterMap (fun tr => rowToEntry (rowTds tr)) ++
      [rowGood2].filterMap (fun tr => rowToEntry (rowTds tr)) :=
  ⟨c5_row_validation.1 row6 (by decide),
   c5_row_validation.2.1 rowPlain (Or.inl (by decide)),
   c5_row_validation.2.1 row8 (Or.inr (by decide)),
   c5_row_validation.2.2 reqSkipEx.data [rowGood1] rowBad [rowGood2] (by decide)
     (Option.isNone_iff_eq_none.mp (by decide))⟩

/-- C6: for every accepted row, the achievement flag is computed from the
raw (pre-tag-stripping) markup of cell 5 — a `fa-check` marker yields
`true`; otherwise an `fa-xmark`/`fa-times`/`xmark`/`minus` marker yields
`false`; otherwise the default is `false`. -/
theorem c6_achieved_icon (tds : List (List Char)) (h7 : 7 ≤ tds.length) :
    (hasFaCheck (tds.getD 5 []) = true →
      (rowToEntry tds).map (fun e => e.achieved_ok) = some true) ∧
    (hasFaCheck (tds.getD 5 []) = false → hasXMark (tds.getD 5 []) = true →
      (rowToEntry tds).map (fun e => e.achieved_ok) = some false) ∧
    (hasFaCheck (tds.getD 5 []) = false → hasXMark (tds.getD 5 []) = false →
      (rowToEntry tds).map (fun e => e.achieved_ok) = some false) := by
  have h7n : ¬ tds.length < 7 := by omega
  rw [rowToEntry_eq tds h7n]
  refine ⟨fun hc => ?_, fun hc hx => ?_, fun hc hx => ?_⟩ <;>
    simp only [List.getD_eq_getElem?_getD] at hc <;>
    simp [hc]

set_option maxRecDepth 1000000 in
/-- Witness for C6: a check-icon row yields `achieved_ok = true`; an
x-icon row and a plain row yield `false`. -/
theorem c6_achieved_icon_witness :
    (rowToEntry rowCheck).map (fun e => e.achieved_ok) = some true ∧
    (rowToEntry rowX).map (fun e => e.achieved_ok) = some false ∧
    (rowToEntry rowPlain).map (fun e => e.achieved_ok) = some false :=
  ⟨(c6_achieved_icon rowCheck (by decide)).1 (by decide),
   (c6_achieved_icon rowX (by decide)).2.1 (by decide) (by decide),
   (c6_achieved_icon rowPlain (by decide)).2.2 (by decide) (by decide)⟩

theorem dropWhile_cons_of_mem_not (p : Char → Bool) (m : List Char) (a : Char)
    (hmem : a ∈ m) (hpa : p a = false) :
    ∃ d tl, m.dropWhile p = d :: tl ∧ p d = false := by
  induction m with
  | nil => cases hmem
  | cons c t ih =>
    cases hpc : p c
    · exact ⟨c, t, by simp [List.dropWhile_cons, hpc], hpc⟩
    · rcases List.mem_cons.mp hmem with rfl | h
      · rw [hpa] at hpc
        cases hpc
      · rcases ih h with ⟨d, tl, hdt, hd⟩
        exact ⟨d, tl, by simp [List.dropWhile_cons, hpc, hdt], hd⟩

/-- C7: numeric distance parsing keeps only digits, commas and periods,
replaces each comma with a period, and parses the remainder as a number,
yielding null — never raising — exactly when the cleaned remainder has no
digit (e.g. is empty) or holds more than one separator; `"1,86 mi"` parses
to `1.86`, and a period is preserved as the decimal separator, so
`"2.1 mi"` parses to `2.1`. -/
theorem c7_distance_parsing :
    parse_distance "1,86 mi".data = some (1.86 : ℚ) ∧
    parse_distance "2.1 mi".data = some (2.1 : ℚ) ∧
    parse_distance "mi".data = none ∧
    parse_distance "1.2.3mi".data = none ∧
    (∀ l : List Char, parse_distance l = none ↔
      ((cleanDistChars l).any Char.isDigit = false ∨
        2 ≤ (cleanDistChars l).count '.')) := by
  refine ⟨?_, ?_, by decide, by decide, ?_⟩
  · rw [show parse_distance "1,86 mi".data =
      some (((1 : ℕ) : ℚ) + ((86 : ℕ) : ℚ) / (10 : ℚ) ^ 2) from rfl]
    norm_num
  · rw [show parse_distance "2.1 mi".data =
      some (((2 : ℕ) : ℚ) + ((1 : ℕ) : ℚ) / (10 : ℚ) ^ 1) from rfl]
    norm_num
  · intro l
    set m := cleanDistChars l with hm
    have halpha : ∀ c ∈ m, (c.isDigit || c == '.') = true := by
      intro c hc
      rw [hm] at hc
      rcases List.mem_map.mp hc with ⟨d, hd, rfl⟩
      have hd2 : distCh d = true := List.of_mem_filter hd
      simp only [distCh, Bool.or_eq_true] at hd2
      by_cases hcomma : (d == ',') = true
      · simp [hcomma]
      · have hdd : d.isDigit = true ∨ (d == '.') = true := by
          rcases hd2 with (h | h) | h
          · exact Or.inl h
          · exact Or.inr h
          · exact absurd h hcomma
        have hne : (d == ',') = false := by
          cases h : (d == ',')
          · rfl
          · exact absurd h hcomma
        rcases hdd with h | h <;> simp [hne, h]
    have hall : m.all distCh = true := by
      rw [List.all_eq_true]
      intro c hc
      have h := halpha c hc
      simp only [distCh, Bool.or_eq_true] at *
      rcases h with h | h
      · exact Or.inl (Or.inl h)
      · exact Or.inl (Or.inr h)
    have hnc : m.any (fun c => c == ',') = false := by
      cases hany : m.any (fun c => c == ',')
      · rfl
      · rcases List.any_eq_true.mp hany with ⟨c, hc, hcm⟩
        have hcc : c = ',' := by simpa using hcm
        have h := halpha c hc
        rw [hcc] at h
        exact absurd h (by decide)
    have hnodigit : ∀ c ∈ m, c ≠ '.' → c.isDigit = true := by
      intro c hc hcd
      have h := halpha c hc
      simp only [Bool.or_eq_true] at h
      rcases h with h | h
      · exact h
      · exact absurd (by simpa using h) hcd
    have hpd : parse_distance l = pyFloatOpt m := by
      rw [hm]
      simp only [parse_distance]
    rw [hpd]
    rcases hcnt : m.count '.' with _ | n
    · -- no separator at all
      cases hme : m.isEmpty
      · have hmne : m ≠ [] := by
          intro h0
          rw [h0] at hme
          simp at hme
        have hnd : '.' ∉ m := List.count_eq_zero.mp hcnt
        rcases List.exists_cons_of_ne_nil hmne with ⟨c, t, hct⟩
        have hcd : c.isDigit = true := by
          apply hnodigit c (by rw [hct]; simp)
          intro hcc
          exact hnd (by rw [hct, hcc]; simp)
        have hany : m.any Char.isDigit = true :=
          List.any_eq_true.mpr ⟨c, by rw [hct]; simp, hcd⟩
        simp [pyFloatOpt, hall, hnc, hcnt, hme, hany]
      · have h0 : m = [] := by simpa [List.isEmpty_iff] using hme
        simp [pyFloatOpt, hall, hnc, hcnt, h0]
    · rcases n with _ | n2
      · -- exactly one separator
        have hmem : '.' ∈ m := List.count_pos_iff.mp (by rw [hcnt]; norm_num)
        rcases dropWhile_cons_of_mem_not (fun c => c != '.') m '.' hmem (by simp)
          with ⟨d, tl, hdw, hd⟩
        have hdd : d = '.' := by simpa using hd
        subst hdd
        have hsplit : m = m.takeWhile (fun c => c != '.') ++ '.' :: tl := by
          conv_lhs => rw [← List.takeWhile_append_dropWhile (fun c => c != '.') m]
          rw [hdw]
        cases hA : (m.takeWhile (fun c => c != '.')).isEmpty
        · have hAne : m.takeWhile (fun c => c != '.') ≠ [] := by
            intro h0
            rw [h0] at hA
            simp at hA
          rcases List.exists_cons_of_ne_nil hAne with ⟨c, t2, hct⟩
          have hcm : c ∈ m := by
            rw [hsplit, hct]
            simp
          have hcnd : c ≠ '.' := by
            have h2 := List.mem_takeWhile_imp (l := m) (p := fun c => c != '.')
              (show c ∈ m.takeWhile (fun c => c != '.') from by rw [hct]; simp)
            simpa using h2
          have hany : m.any Char.isDigit = true :=
            List.any_eq_true.mpr ⟨c, hcm, hnodigit c hcm hcnd⟩
          simp [pyFloatOpt, hall, hnc, hcnt, hdw, hA, hany]
        · have hA0 : m.takeWhile (fun c => c != '.') = [] := by
            simpa [List.isEmpty_iff] using hA
          cases hB : tl.isEmpty
          · have hBne : tl ≠ [] := by
              intro h0
              rw [h0] at hB
              simp at hB
            rcases List.exists_cons_of_ne_nil hBne with ⟨c, t2, hct⟩
            have hcm : c ∈ m := by
              rw [hsplit, hct]
              simp
            have hcnt2 : tl.count '.' = 0 := by
              rw [hsplit] at hcnt
              simp [List.count_append, List.count_cons] at hcnt
              omega
            have hcnd : c ≠ '.' := by
              intro h0
              exact (List.count_eq_zero.mp hcnt2) (by rw [← h0, hct]; simp)
            have hany : m.any Char.isDigit = true :=
              List.any_eq_true.mpr ⟨c, hcm, hnodigit c hcm hcnd⟩
            simp [pyFloatOpt, hall, hnc, hcnt, hdw, hA, hB, hany]
          · have hB0 : tl = [] := by simpa [List.isEmpty_iff] using hB
            have hm1 : m = ['.'] := by
              rw [hsplit, hA0, hB0]
              rfl
            rw [hm1]
            decide
      · -- two or more separators
        simp [pyFloatOpt, hall, hnc, hcnt, show (2 : ℕ) ≤ n2 + 1 + 1 from by omega]

set_option maxRecDepth 1000000 in
/-- Counterexample for C8: a prognosis cell containing only tags cleans to
the empty string — which is not the dash `"-"` — yet the stored field is
null rather than the (empty) cleaned text. -/
theorem c8_counterexample :
    (parse_marathon_requirements_html (PyInput.str c8ex)).entries.map
      (fun e => e.prognosis_time) = [none] ∧
    clean_html ((rowTds ((reqRows c8ex.data).getD 0 [])).getD 6 []) = [] ∧
    (([] : List Char) ≠ "-".data) := by
  refine ⟨by decide, by decide, by decide⟩

theorem collapse_eval (pc : List Char) :
    (if !pc.isEmpty && pc ≠ ['-'] then some (String.mk pc) else none) =
      if pc = [] ∨ pc = ['-'] then none else some (String.mk pc) := by
  rcases pc with _ | ⟨c, cs⟩
  · simp
  · by_cases h : (c :: cs) = ['-'] <;> simp [h]

/-- C8 as amended: for every accepted row, a prognosis or optimum cell
whose cleaned text is the bare dash — or the empty string — is stored as
null, and any other (non-empty, non-dash) cleaned text is stored
unchanged; a 7-cell row stores null for the optimum field. -/
theorem c8_placeholder_collapse_amended (tds : List (List Char))
    (h7 : 7 ≤ tds.length) :
    (clean_html (tds.getD 6 []) = ['-'] →
      (rowToEntry tds).map (fun e => e.prognosis_time) = some none) ∧
    (clean_html (tds.getD 6 []) = [] →
      (rowToEntry tds).map (fun e => e.prognosis_time) = some none) ∧
    (clean_html (tds.getD 6 []) ≠ ['-'] → clean_html (tds.getD 6 []) ≠ [] →
      (rowToEntry tds).map (fun e => e.prognosis_time) =
        some (some (String.mk (clean_html (tds.getD 6 []))))) ∧
    (tds.length = 7 →
      (rowToEntry tds).map (fun e => e.optimum_time) = some none) ∧
    (8 ≤ tds.length → clean_html (tds.getD 7 []) = ['-'] →
      (rowToEntry tds).map (fun e => e.optimum_time) = some none) ∧
    (8 ≤ tds.length → clean_html (tds.getD 7 []) = [] →
      (rowToEntry tds).map (fun e => e.optimum_time) = some none) ∧
    (8 ≤ tds.length → clean_html (tds.getD 7 []) ≠ ['-'] →
      clean_html (tds.getD 7 []) ≠ [] →
      (rowToEntry tds).map (fun e => e.optimum_time) =
        some (some (String.mk (clean_html (tds.getD 7 []))))) := by
  have h7n : ¬ tds.length < 7 := by omega
  have h6 : 6 < tds.length := by omega
  rw [rowToEntry_eq tds h7n]
  refine ⟨fun h => ?_, fun h => ?_, fun h1 h2 => ?_, fun h8 => ?_,
    fun h8 h => ?_, fun h8 h => ?_, fun h8 h1 h2 => ?_⟩
  · rw [if_pos h6, h]
    rfl
  · rw [if_pos h6, h]
    rfl
  · have hne : (clean_html (tds.getD 6 [])).isEmpty = false := by
      cases hq : (clean_html (tds.getD 6 [])).isEmpty
      · rfl
      · exact absurd (List.isEmpty_iff.mp hq) h2
    rw [if_pos h6]
    show some (if !(clean_html (tds.getD 6 [])).isEmpty &&
          clean_html (tds.getD 6 []) ≠ ['-'] then
        some (String.mk (clean_html (tds.getD 6 []))) else none) =
      some (some (String.mk (clean_html (tds.getD 6 []))))
    rw [hne, decide_eq_true h1]
    rfl
  · rw [if_neg (show ¬ 7 < tds.length from by omega)]
    rfl
  · rw [if_pos (show 7 < tds.length from by omega), h]
    rfl
  · rw [if_pos (show 7 < tds.length from by omega), h]
    rfl
  · have hne : (clean_html (tds.getD 7 [])).isEmpty = false := by
      cases hq : (clean_html (tds.getD 7 [])).isEmpty
      · rfl
      · exact absurd (List.isEmpty_iff.mp hq) h2
    rw [if_pos (show 7 < tds.length from by omega)]
    show some (if !(clean_html (tds.getD 7 [])).isEmpty &&
          clean_html (tds.getD 7 []) ≠ ['-'] then
        some (String.mk (clean_html (tds.getD 7 []))) else none) =
      some (some (String.mk (clean_html (tds.getD 7 []))))
    rw [hne, decide_eq_true h1]
    rfl

set_option maxRecDepth 1000000 in
/-- Witness for C8 as amended: a dash prognosis cell stores null; a plain
time cell is stored unchanged; a 7-cell row stores null optimum. -/
theorem c8_placeholder_collapse_amended_witness :
    (rowToEntry rowDash).map (fun e => e.prognosis_time) = some none ∧
    (rowToEntry rowPlain).map (fun e => e.prognosis_time) = some (some "4:00:00") ∧
    (rowToEntry rowPlain).map (fun e => e.optimum_time) = some none := by
  refine ⟨(c8_placeholder_collapse_amended rowDash (by decide)).1 (by decide), ?_,
    (c8_placeholder_collapse_amended rowPlain (by decide)).2.2.2.1 (by decide)⟩
  rw [(c8_placeholder_collapse_amended rowPlain (by decide)).2.2.1 (by decide) (by decide)]
  rfl

theorem length_filterMap_isSome {α β γ : Type} (f : α → Option β) (g : β → γ)
    (l : List α) :
    (l.filterMap (fun a => (f a).map g)).length =
      l.countP (fun a => (f a).isSome) := by
  induction l with
  | nil => rfl
  | cons a t ih =>
    cases hfa : f a <;>
      simp [List.filterMap_cons, List.countP_cons, hfa, ih]

/-- C9: every record appended to `entries` is fully constructed — an
accepted requirements row always yields exactly one entry whose
`distance_mi` field is the (possibly null) parsed distance, a null
distance never excluding the record; and every tier-1 paragraph match
yields exactly one prognosis entry, all of whose displayed fields are
populated. -/
theorem c9_full_records :
    (∀ tds : List (List Char), 7 ≤ tds.length →
      (rowToEntry tds).isSome = true ∧
      (rowToEntry tds).map (fun e => e.distance_mi) =
        some (parse_distance (clean_html (tds.getD 0 [])))) ∧
    (∀ html : List Char, (tier1Entries html).length =
      (pBlocks html).countP (fun pb => (rsearch patTier1 pb).isSome)) ∧
    (∀ caps, (mkProgEntry1 caps).distance_label.isSome = true ∧
      (mkProgEntry1 caps).time.isSome = true ∧
      (mkProgEntry1 caps).pace.isSome = true) := by
  refine ⟨fun tds h7 => ?_, fun html => ?_, fun caps => ⟨rfl, rfl, rfl⟩⟩
  · have h7n : ¬ tds.length < 7 := by omega
    rw [rowToEntry_eq tds h7n]
    exact ⟨rfl, rfl⟩
  · unfold tier1Entries
    exact length_filterMap_isSome (fun pb => rsearch patTier1 pb)
      (fun r => mkProgEntry1 r.fst) (pBlocks html)

set_option maxRecDepth 1000000 in
/-- Witness for C9: a 7-cell row whose distance cell is unparsable is
still accepted, with a null `distance_mi`. -/
theorem c9_full_records_witness :
    (rowToEntry rowND).isSome = true ∧
    (rowToEntry rowND).map (fun e => e.distance_mi) = some none := by
  have h := c9_full_records.1 rowND (by decide)
  refine ⟨h.1, ?_⟩
  rw [h.2]
  decide

/-- C10: for every accepted row, a prognosis or optimum cell whose cleaned
text is empty (for example a cell containing only tags) yields null for
that field, exactly like the dash placeholder, and an accepted row never
stores the empty string in `prognosis_time`. -/
theorem c10_empty_cell_null (tds : List (List Char)) (h7 : 7 ≤ tds.length) :
    (clean_html (tds.getD 6 []) = [] →
      (rowToEntry tds).map (fun e => e.prognosis_time) = some none) ∧
    (8 ≤ tds.length → clean_html (tds.getD 7 []) = [] →
      (rowToEntry tds).map (fun e => e.optimum_time) = some none) ∧
    (∀ e t, rowToEntry tds = some e → e.prognosis_time = some t → t ≠ "") := by
  have h7n : ¬ tds.length < 7 := by omega
  have h6 : 6 < tds.length := by omega
  refine ⟨fun h => ?_, fun h8 h => ?_, fun e t he ht => ?_⟩
  · rw [rowToEntry_eq tds h7n, if_pos h6, h]
    rfl
  · rw [rowToEntry_eq tds h7n, if_pos (show 7 < tds.length from by omega), h]
    rfl
  · rw [rowToEntry_eq tds h7n] at he
    have hpt : e.prognosis_time =
        (if clean_html (tds.getD 6 []) = [] ∨ clean_html (tds.getD 6 []) = ['-']
          then none
          else some (String.mk (clean_html (tds.getD 6 [])))) := by
      rw [show e = _ from (Option.some_inj.mp he).symm]
      show (match (if 6 < tds.length then some (clean_html (tds.getD 6 [])) else none) with
        | some pc => if !pc.isEmpty && pc ≠ ['-'] then some (String.mk pc) else none
        | none => none) = _
      rw [if_pos h6]
      show (if !(clean_html (tds.getD 6 [])).isEmpty &&
            clean_html (tds.getD 6 []) ≠ ['-'] then
          some (String.mk (clean_html (tds.getD 6 []))) else none) = _
      exact collapse_eval _
    rw [hpt] at ht
    split at ht
    · cases ht
    · rename_i hcond
      intro hteq
      apply hcond
      left
      have hmk : String.mk (clean_html (tds.getD 6 [])) = "" := by
        have h2 := Option.some_inj.mp ht
        rw [h2, hteq]
      exact congrArg String.data hmk

set_option maxRecDepth 1000000 in
/-- Witness for C10: a prognosis cell containing only tags cleans to the
empty string and is stored as null. -/
theorem c10_empty_cell_null_witness :
    (rowToEntry rowEmptyCell).map (fun e => e.prognosis_time) = some none :=
  (c10_empty_cell_null rowEmptyCell (by decide)).1 (by decide)
